import Mathlib

/-!
Verification of the Jellyfin Library Manager's torrent-to-library
reconciliation engine.

The Python modules `torrent_manager.py`, `database.py`, `anime_manager.py`,
`ffprobe_utils.py` and `utils.py` are embedded shallowly: dictionaries become
structures with `Option` fields (a missing key is `none`, `dict.get(k, d)`
becomes `Option.getD`), filesystem and daemon effects become explicit
parameters (an `onDisk : String → Bool` oracle, a walk listing, a filesystem
state record), and `os.path.join` is modelled for POSIX-style separators.
-/

namespace JellyfinLib

/-! ## String and path utilities -/

/-- Characters forbidden in filenames, from `sanitize_filename`
(`torrent_manager.py` line 17): the regex class `[\\/:*?"<>|]`. -/
def isForbiddenChar (c : Char) : Bool :=
  c == '\\' || c == '/' || c == ':' || c == '*' || c == '?' ||
  c == '"' || c == '<' || c == '>' || c == '|'

/-- Does the character list start with the given literal?  (The model of
Python's `str.startswith` on lower-cased data, also used by the pattern
searches below.) -/
def startsWithChars : List Char → List Char → Bool
  | _, [] => true
  | [], _ :: _ => false
  | c :: cs, d :: ds => c == d && startsWithChars cs ds

/-- Model of Python's `str.strip()`: drop leading and trailing whitespace. -/
def stripChars (l : List Char) : List Char :=
  ((l.dropWhile Char.isWhitespace).reverse.dropWhile Char.isWhitespace).reverse

/-- Is the first character of the string the given one? -/
def strHeadIs (c : Char) (s : String) : Bool :=
  match s.data with
  | [] => false
  | d :: _ => d == c

/-- Is the last character of the string the given one? -/
def strLastIs (c : Char) (s : String) : Bool :=
  match s.data.getLast? with
  | some d => d == c
  | none => false

/-- Model of Python's `str.endswith` for a literal suffix. -/
def strEndsWithLit (s suffixLit : String) : Bool :=
  startsWithChars s.data.reverse suffixLit.data.reverse

/-- `sanitize_filename` (`torrent_manager.py` lines 15-18): replace each
forbidden character with a space and strip surrounding whitespace. -/
def sanitizeFilename (name : String) : String :=
  ⟨stripChars (name.data.map (fun c => if isForbiddenChar c then ' ' else c))⟩

/-- `os.path.join` on two components (POSIX semantics): an absolute second
component wins, otherwise a separator is inserted unless the first component
is empty or already ends with one.  In particular `pathJoin a "" = a ++ "/"`
for a nonempty `a` without a trailing separator. -/
def pathJoin (a b : String) : String :=
  if strHeadIs '/' b then b
  else if a == "" || strLastIs '/' a then a ++ b
  else a ++ "/" ++ b

/-- Python's `str.lower()` restricted to the ASCII range, which is all the
code compares (hex infohashes, state names). -/
def pyLower (s : String) : String := ⟨s.data.map Char.toLower⟩

/-- Drop a trailing separator (the normalisation `os.path.normpath` and
`os.path.abspath` apply to a path with a trailing slash), used to compare
deletion targets. -/
def normTrailing (s : String) : String :=
  if strLastIs '/' s then String.mk (s.data.dropLast) else s

/-- Python truthiness of an optional string (`None` and `""` are falsy). -/
def truthyStr : Option String → Bool
  | some s => s != ""
  | none => false

/-! ## Tracked torrents, daemon torrents and synced views -/

/-- One record of the tracked-torrent store (`database.py`): the dictionary
created by `TorrentDatabase.add_torrent` lines 53-67.  Fields that code paths
read with `dict.get` and that may be absent on foreign records are `Option`s.
`addedDate` is the creation timestamp string. -/
structure TrackedTorrent where
  id : Nat
  title : Option String
  size : Option String
  seeds : Option Nat
  leechers : Option Nat
  downloads : Option Nat
  infohash : Option String
  category : Option String
  link : Option String
  downloadPath : Option String
  addedDate : Option String
  status : Option String
  anilistInfo : Option (List (String × String))
  deriving Repr, DecidableEq

/-- The candidate information passed to `add_torrent` (`torrent_info`
dictionary); every key is read with a default, so every field is optional. -/
structure TorrentInfo where
  title : Option String
  size : Option String
  seeds : Option Nat
  leechers : Option Nat
  downloads : Option Nat
  infohash : Option String
  category : Option String
  link : Option String
  downloadPath : Option String
  anilistInfo : Option (List (String × String))
  deriving Repr, DecidableEq

/-- One torrent as reported by the qBittorrent daemon
(`qb_get_torrent_info`); the sync code reads every key with `dict.get`. -/
structure QbTorrent where
  hash : Option String
  state : Option String
  progress : Option Rat
  downloaded : Option Int
  size : Option Int
  dlspeed : Option Int
  upspeed : Option Int
  etaSecs : Option Int
  ratioVal : Option Rat
  name : Option String
  savePath : Option String
  deriving Repr, DecidableEq

/-- The merge of a tracked record with its daemon status
(`sync_torrents_with_qbittorrent` lines 56-78).  The `qb_*` keys other than
`qb_status` are only present when the torrent was found in the daemon, hence
`Option`; `found_in_qb` and `qb_status` are set on both branches. -/
structure SyncedTorrent where
  base : TrackedTorrent
  foundInQb : Bool
  qbStatus : String
  qbProgress : Option Rat
  qbDownloaded : Option Int
  qbSize : Option Int
  qbSpeedDl : Option Int
  qbSpeedUp : Option Int
  qbEtaSecs : Option Int
  qbRatioVal : Option Rat
  qbName : Option String
  qbSavePath : Option String
  deriving Repr, DecidableEq

/-- The hash comparison of `torrent_manager.py` line 52:
`qb_torrent.get('hash', '').lower() == tracked.get('infohash', '').lower()`. -/
def hashMatches (t : TrackedTorrent) (q : QbTorrent) : Bool :=
  pyLower (q.hash.getD "") == pyLower (t.infohash.getD "")

/-- The per-record merge of `sync_torrents_with_qbittorrent` lines 48-78:
find the first daemon torrent whose hash matches case-insensitively; merge
its fields if found, else mark the view not found. -/
def mergeView (qb : List QbTorrent) (t : TrackedTorrent) : SyncedTorrent :=
  match qb.find? (hashMatches t) with
  | some m =>
    { base := t
      foundInQb := true
      qbStatus := m.state.getD "unknown"
      qbProgress := some ((m.progress.getD 0) * 100)
      qbDownloaded := some (m.downloaded.getD 0)
      qbSize := some (m.size.getD 0)
      qbSpeedDl := some (m.dlspeed.getD 0)
      qbSpeedUp := some (m.upspeed.getD 0)
      qbEtaSecs := some (m.etaSecs.getD 0)
      qbRatioVal := some (m.ratioVal.getD 0)
      qbName := some (m.name.getD "Unknown")
      qbSavePath := some (m.savePath.getD "Unknown") }
  | none =>
    { base := t
      foundInQb := false
      qbStatus := "not_found"
      qbProgress := none, qbDownloaded := none, qbSize := none
      qbSpeedDl := none, qbSpeedUp := none, qbEtaSecs := none
      qbRatioVal := none, qbName := none, qbSavePath := none }

/-- `TorrentManager.sync_torrents_with_qbittorrent` (lines 27-80).
Connection and authentication are boolean oracles; the daemon listing and the
tracked store are explicit inputs.  Note the early return at lines 40-41: an
empty daemon listing yields `(some [], error)` without producing any views. -/
def syncTorrentsWithQb (connected authenticated : Bool) (qb : List QbTorrent)
    (tracked : List TrackedTorrent) :
    Option (List SyncedTorrent) × Option String :=
  if !connected then (none, some "qBittorrent not accessible")
  else if !authenticated then
    (none, some "Failed to authenticate with qBittorrent")
  else if qb.isEmpty then (some [], some "No torrents found in qBittorrent")
  else (some (tracked.map (mergeView qb)), none)

/-! ## The tracked-torrent store (`database.py`) -/

/-- `TorrentDatabase.add_torrent` (`database.py` lines 48-73) as a pure
transformation of the torrent list: the new entry's `id` is
`len(db_data["torrents"]) + 1`, every other field is filled from
`torrent_info` with the source's defaults, and the entry is appended.
`now` stands for `datetime.now().isoformat()`. -/
def addTorrent (info : TorrentInfo) (now : String)
    (db : List TrackedTorrent) : List TrackedTorrent × Nat :=
  let entry : TrackedTorrent :=
    { id := db.length + 1
      title := some (info.title.getD "Unknown")
      size := some (info.size.getD "Unknown")
      seeds := some (info.seeds.getD 0)
      leechers := some (info.leechers.getD 0)
      downloads := some (info.downloads.getD 0)
      infohash := some (info.infohash.getD "N/A")
      category := some (info.category.getD "N/A")
      link := some (info.link.getD "N/A")
      downloadPath := some (info.downloadPath.getD "Default")
      addedDate := some now
      status := some "added"
      anilistInfo := some (info.anilistInfo.getD []) }
  (db ++ [entry], entry.id)

/-- `TorrentDatabase.remove_torrents_by_infohash` (`database.py` lines
100-107): keep exactly the entries whose stored infohash is not string-equal
to the argument (`t.get("infohash") != infohash`, so an absent hash never
matches), and return the number removed. -/
def removeTorrentsByInfohash (infohash : String)
    (db : List TrackedTorrent) : List TrackedTorrent × Nat :=
  let kept := db.filter (fun t => decide (t.infohash ≠ some infohash))
  (kept, db.length - kept.length)

/-! ## The completion filter (`auto_add_completed_torrents`) -/

/-- The terminal/seeding daemon states of `torrent_manager.py` line 218. -/
def completedStates : List String :=
  ["completedDL", "uploading", "stalledUP", "queuedUP"]

/-- Lookup of a key in the `anilist_info` dictionary of a record
(`torrent.get('anilist_info', {})` followed by `.get('title')`). -/
def anilistTitle (t : TrackedTorrent) : Option String :=
  (t.anilistInfo.getD []).lookup "title"

/-- The candidate test of `TorrentManager.auto_add_completed_torrents`
(`torrent_manager.py` lines 216-246), up to and including the on-disk check,
with `os.path.exists` supplied as the oracle `onDisk`.  The guards appear in
source order: found in the daemon, terminal state, not already added, a
truthy `anilist_info['title']`, a truthy `anilist_info` dictionary, truthy
`qb_save_path` and `qb_name`, and existence of their join. -/
def isCompletedCandidate (onDisk : String → Bool) (t : SyncedTorrent) : Bool :=
  t.foundInQb
  && completedStates.contains t.qbStatus
  && t.base.status != some "added_to_library"
  && truthyStr (anilistTitle t.base)
  && (match t.base.anilistInfo with
      | some l => !l.isEmpty
      | none => false)
  && t.qbSavePath.getD "" != ""
  && t.qbName.getD "" != ""
  && onDisk (pathJoin (t.qbSavePath.getD "") (t.qbName.getD ""))

/-- The candidate selection of `auto_add_completed_torrents` over a synced
view list (the spec's `classifyCompleted`). -/
def classifyCompleted (onDisk : String → Bool)
    (views : List SyncedTorrent) : List SyncedTorrent :=
  views.filter (isCompletedCandidate onDisk)

/-! ## The season / specials patterns (`torrent_manager.py` lines 93-94)

`season_regex = (season[ _-]?(\d+)|s(\d{1,2}))(?!\d)` with `re.IGNORECASE`,
searched with `re.search`; `specials_regex` is an alternation of plain
substrings.  Both are modelled by direct leftmost-match scanning over the
lower-cased character list, with the alternation order and the greedy
quantifier semantics of the originals. -/

/-- Maximal leading run of ASCII digits. -/
def takeDigits : List Char → List Char
  | [] => []
  | c :: rest => if c.isDigit then c :: takeDigits rest else []

/-- Interpret a digit string as a natural number (Python `int`). -/
def digitsToNat (ds : List Char) : Nat :=
  ds.foldl (fun n c => n * 10 + (c.toNat - 48)) 0

/-- Try the season pattern at the head of the (lower-cased) list, returning
the captured digit group.  Branch 1 is `season[ _-]?(\d+)`: after the literal
an optional single separator, then a maximal digit run (the trailing `(?!\d)`
is vacuous on a maximal run).  Branch 2 is `s(\d{1,2})(?!\d)`: two digits not
followed by a digit, else one digit not followed by a digit. -/
def seasonAt (cs : List Char) : Option (List Char) :=
  if startsWithChars cs "season".data then
    let rest := cs.drop 6
    let rest2 := match rest with
      | c :: tail => if c == ' ' || c == '_' || c == '-' then tail else rest
      | [] => rest
    match takeDigits rest2 with
    | [] => none
    | ds => some ds
  else
    match cs with
    | 's' :: d1 :: rest =>
      if d1.isDigit then
        match rest with
        | d2 :: rest2 =>
          if d2.isDigit then
            match rest2 with
            | d3 :: _ => if d3.isDigit then none else some [d1, d2]
            | [] => some [d1, d2]
          else some [d1]
        | [] => some [d1]
      else none
    | _ => none

/-- Leftmost search for the season pattern over a character list. -/
def seasonSearchAux : List Char → Option (List Char)
  | [] => none
  | c :: rest =>
    match seasonAt (c :: rest) with
    | some ds => some ds
    | none => seasonSearchAux rest

/-- `season_regex.search(s)` together with the extraction
`season_match.group(2) or season_match.group(3)` and `int(season_num)`:
the season number found in `s`, if any. -/
def seasonSearch (s : String) : Option Nat :=
  (seasonSearchAux (s.data.map Char.toLower)).map digitsToNat

/-- Substring containment on character lists. -/
def containsChars : List Char → List Char → Bool
  | hay, needle =>
    startsWithChars hay needle ||
      match hay with
      | [] => false
      | _ :: t => containsChars t needle

/-- `specials_regex.search(s)` as a boolean: does `s` contain (ignoring
case) one of the special/extra tokens of `torrent_manager.py` line 94? -/
def specialsSearch (s : String) : Bool :=
  let h := s.data.map Char.toLower
  ["special", "extra", "ova", "sp", "nced", "ncop", "s00"].any
    (fun w => containsChars h w.data)

/-! ## The layout planner (`sort_torrent_files_for_jellyfin`) -/

/-- `is_episode_file` (`utils.py` lines 52-54) with
`VIDEO_EXTENSIONS = ('.mkv', '.mp4', '.avi')` from `config.py`. -/
def isEpisodeFile (filePath : String) : Bool :=
  let l := pyLower filePath
  strEndsWithLit l ".mkv" || strEndsWithLit l ".mp4" || strEndsWithLit l ".avi"

/-- One triple yielded by `os.walk(download_path)`: `rootPath` is the walked
directory (`root`), `relRoot` is `os.path.relpath(root, download_path)`, and
`files` its plain files.  A download folder that cannot be listed yields the
empty walk (with `onerror=None`, `os.walk` swallows the error and yields
nothing). -/
structure WalkEntry where
  rootPath : String
  relRoot : String
  files : List String
  deriving Repr, DecidableEq

/-- Model of Python's `str.split(sep)` for a single-character separator:
split the character list at every occurrence of `sep`, keeping empty
groups (`"".split(sep)` gives `[""]`). -/
def splitChars (sep : Char) : List Char → List (List Char)
  | [] => [[]]
  | c :: rest =>
    let r := splitChars sep rest
    if c == sep then [] :: r
    else
      match r with
      | [] => [[c]]
      | g :: gs => (c :: g) :: gs

/-- The filtered relative path components of `torrent_manager.py` line 100:
split on the separator and drop empty parts and `"."`. -/
def relPartsOf (relRoot : String) : List String :=
  ((splitChars '/' relRoot.data).map String.mk).filter
    (fun p => decide (p ≠ "" ∧ p ≠ "."))

/-- A source→target entry of the layout plan. -/
structure FileEntry where
  source : String
  target : String
  deriving Repr, DecidableEq

/-- A target folder with its file entries. -/
structure FolderEntry where
  path : String
  files : List FileEntry
  deriving Repr, DecidableEq

/-- The layout plan (`file_structure` dictionary): the per-title library
root and the grouped folders. -/
structure FileStructure where
  root : String
  folders : List FolderEntry
  deriving Repr, DecidableEq

/-- Formatting of `f'Season {int(season_num):02d}'`: the season number
zero-padded to at least two digits. -/
def seasonFolderName (n : Nat) : String :=
  if n < 10 then "Season 0" ++ toString n else "Season " ++ toString n

/-- The deepest-first scan over the parent folders (`torrent_manager.py`
lines 116-135): the input is `rel_parts` reversed (the code walks indices
`len` down to `1`); within one folder name the season pattern is tried
before the specials pattern, and the first folder matching either wins. -/
def scanFolderParts (mainFolder : String) : List String → Option String
  | [] => none
  | p :: rest =>
    match seasonSearch p with
    | some n => some (pathJoin mainFolder (seasonFolderName n))
    | none =>
      if specialsSearch p then some (pathJoin mainFolder "Season 00")
      else scanFolderParts mainFolder rest

/-- The season/specials classification of a single file
(`torrent_manager.py` lines 112-154): parent folders deepest-first, then the
file's own name (season first, specials second), defaulting to `Season 01`. -/
def bestFolderFor (mainFolder : String) (relParts : List String)
    (fname : String) : String :=
  match scanFolderParts mainFolder relParts.reverse with
  | some folder => folder
  | none =>
    match seasonSearch fname with
    | some n => pathJoin mainFolder (seasonFolderName n)
    | none =>
      if specialsSearch fname then pathJoin mainFolder "Season 00"
      else pathJoin mainFolder "Season 01"

/-- The movie test of `torrent_manager.py` line 108,
`if duration and duration > 40 * 60`: the probed duration is truthy
(non-`None` and nonzero) and exceeds 2400 seconds. -/
def isMovieDuration : Option Rat → Bool
  | some d => d != 0 && decide (d > 2400)
  | none => false

/-- The routing of one video file (`torrent_manager.py` lines 104-155):
`Movies` when the duration probe says movie, otherwise the season/specials
classification of `bestFolderFor`. -/
def routeFile (mainFolder : String) (probe : String → Option Rat)
    (rootPath : String) (relParts : List String) (fname : String) : String :=
  if isMovieDuration (probe (pathJoin rootPath fname)) then
    pathJoin mainFolder "Movies"
  else bestFolderFor mainFolder relParts fname

/-- `folder_map.setdefault(folder, []).append(entry)` on an
insertion-ordered dictionary modelled as an association list. -/
def mapAppend (m : List (String × List FileEntry)) (k : String)
    (v : FileEntry) : List (String × List FileEntry) :=
  match m with
  | [] => [(k, [v])]
  | (k', vs) :: rest =>
    if k' == k then (k', vs ++ [v]) :: rest
    else (k', vs) :: mapAppend rest k v

/-- The per-title library root `os.path.join(anime_base_folder, anime_title)`
computed identically in `sort_torrent_files_for_jellyfin` (lines 87-90) and
`remove_torrent_and_library_entry` (lines 266-269):
the sanitized `anilist_info['title']`, defaulting to `"Unknown Anime"`. -/
def animeMainFolderFor (animeBase : String) (t : TrackedTorrent) : String :=
  pathJoin animeBase (sanitizeFilename ((anilistTitle t).getD "Unknown Anime"))

/-- Processing of the files of one walk triple (`torrent_manager.py` lines
101-155): skip non-video files, compute the file path, route, and append the
source→target entry under the routed folder. -/
def planWalkFiles (mainFolder : String) (probe : String → Option Rat)
    (e : WalkEntry) (m : List (String × List FileEntry)) :
    List (String × List FileEntry) :=
  e.files.foldl
    (fun acc f =>
      if isEpisodeFile f then
        let filePath := pathJoin e.rootPath f
        let folder := routeFile mainFolder probe e.rootPath
          (relPartsOf e.relRoot) f
        mapAppend acc folder { source := filePath, target := pathJoin folder f }
      else acc) m

/-- `TorrentManager.sort_torrent_files_for_jellyfin` (lines 82-159): walk
the download folder, route every video file, and group the entries by target
folder.  The function unconditionally returns a plan (`some`): there is no
code path producing `None`. -/
def sortTorrentFilesForJellyfin (animeBase : String)
    (probe : String → Option Rat) (torrent : TrackedTorrent)
    (walk : List WalkEntry) : Option FileStructure :=
  let mainFolder := animeMainFolderFor animeBase torrent
  let fm := walk.foldl (fun m e => planWalkFiles mainFolder probe e m) []
  some { root := mainFolder
         folders := fm.map (fun kv => { path := kv.1, files := kv.2 }) }

/-! ## The linker (`add_completed_torrent_to_library`) -/

/-- Filesystem state: the set of existing paths and the symlinks created so
far as (target, source) pairs. -/
structure FS where
  paths : List String
  links : List (String × String)
  deriving Repr, DecidableEq

/-- `os.path.exists`. -/
def fsExists (fs : FS) (p : String) : Bool := fs.paths.contains p

/-- `os.makedirs(p, exist_ok=True)` with its failure branch: an existing
directory succeeds without consulting the environment; otherwise the oracle
`mkOk` decides whether the call raises (lines 170-174 catch the exception
and abort the whole apply).  A failed call is modelled as creating nothing. -/
def fsMkdirE (mkOk : String → Bool) (fs : FS) (p : String) : Option FS :=
  if fsExists fs p then some fs
  else if mkOk p then some { fs with paths := p :: fs.paths } else none

/-- `os.symlink(source, target)` succeeding (only called on a non-existing
target). -/
def fsSymlink (fs : FS) (source target : String) : FS :=
  { paths := target :: fs.paths, links := (target, source) :: fs.links }

/-- Writing a file (the `track.json` dump of lines 191-199) with its failure
branch: overwriting an existing path always leaves it present; creating a
new one succeeds iff the oracle `writeOk` allows it, and a failure is caught
and ignored (the state is unchanged). -/
def fsWriteE (writeOk : String → Bool) (fs : FS) (p : String) : FS :=
  if fsExists fs p then fs
  else if writeOk p then { fs with paths := p :: fs.paths } else fs

/-- The per-file loop of `add_completed_torrent_to_library` (lines 175-183):
an existing target counts as already linked; otherwise `os.symlink` is
attempted — on success (per the oracle `linkOk`) the link is created and
counted, on failure the exception is caught, the file is skipped without
incrementing the count, and the target stays missing. -/
def applyFilesE (linkOk : String → String → Bool) (fs : FS) (count : Nat) :
    List FileEntry → FS × Nat
  | [] => (fs, count)
  | e :: rest =>
    if fsExists fs e.target then applyFilesE linkOk fs (count + 1) rest
    else if linkOk e.source e.target then
      applyFilesE linkOk (fsSymlink fs e.source e.target) (count + 1) rest
    else applyFilesE linkOk fs count rest

/-- The per-folder loop of `add_completed_torrent_to_library` (lines
169-183): create the folder — a `makedirs` failure aborts the whole apply
(third component `false`) — then process its files. -/
def applyFoldersE (mkOk : String → Bool) (linkOk : String → String → Bool)
    (fs : FS) (count : Nat) : List FolderEntry → FS × Nat × Bool
  | [] => (fs, count, true)
  | f :: rest =>
    match fsMkdirE mkOk fs f.path with
    | none => (fs, count, false)
    | some fs1 =>
      let r := applyFilesE linkOk fs1 count f.files
      applyFoldersE mkOk linkOk r.1 r.2 rest

/-- `TorrentManager.add_completed_torrent_to_library` (lines 161-203) given
the already-computed plan: a missing plan fails; a `makedirs` failure aborts
with `false`; zero linked-or-existing files fail; otherwise `track.json` is
written (best effort) under the plan root and the call succeeds. -/
def addCompletedTorrentToLibrary (mkOk : String → Bool)
    (linkOk : String → String → Bool) (writeOk : String → Bool)
    (plan : Option FileStructure) (fs : FS) : Bool × FS :=
  match plan with
  | none => (false, fs)
  | some st =>
    let r := applyFoldersE mkOk linkOk fs 0 st.folders
    if r.2.2 then
      if r.2.1 = 0 then (false, r.1)
      else (true, fsWriteE writeOk r.1 (pathJoin st.root "track.json"))
    else (false, r.1)

/-! ## Removal paths -/

/-- The guard of `AnimeManager._remove_entire_anime` (`anime_manager.py`
lines 578-583): refuse when the absolute folder path equals the absolute
library root.  `ab` stands for `os.path.abspath`. -/
def removeEntireAnimeAllowed (ab : String → String) (animeBase : String)
    (animeMainFolder : String) : Bool :=
  !(ab animeMainFolder == ab animeBase)

/-- The deletion performed by `TorrentManager.remove_torrent_and_library_entry`
(lines 262-272): compute the per-title folder from the record's title and
`rmtree` it whenever it exists — there is no comparison against the library
root on this path.  The result is the path handed to `shutil.rmtree`,
`none` when nothing is deleted. -/
def removeTorrentDeletionTarget (animeBase : String)
    (onDisk : String → Bool) (t : TrackedTorrent) : Option String :=
  let folder := animeMainFolderFor animeBase t
  if onDisk folder then some folder else none

/-- The contents of a `track.json` file as read by
`_find_associated_torrent_by_track_json`. -/
structure TrackData where
  infohash : Option String
  downloadPath : Option String
  deriving Repr, DecidableEq

/-- The loop body tests of `anime_manager.py` lines 773-777: first
`track_infohash and torrent.get("infohash") == track_infohash`, then
`track_download_path and abspath(torrent.get("download_path", "")) ==
track_download_path`, where `track_download_path` was already normalised. -/
def trackHashMatches (d : TrackData) (t : TrackedTorrent) : Bool :=
  truthyStr d.infohash && t.infohash == d.infohash

/-- The download-path comparison of the same loop. -/
def trackPathMatches (ab : String → String) (d : TrackData)
    (t : TrackedTorrent) : Bool :=
  let tdp := ab (d.downloadPath.getD "")
  tdp != "" && ab (t.downloadPath.getD "") == tdp

/-- The scan of `_find_associated_torrent_by_track_json` (lines 773-779):
for each tracked record in listing order, return it if its hash matches the
track data, else if its normalised download path matches. -/
def findAssociatedScan (ab : String → String) (d : TrackData) :
    List TrackedTorrent → Option TrackedTorrent
  | [] => none
  | t :: rest =>
    if trackHashMatches d t then some t
    else if trackPathMatches ab d t then some t
    else findAssociatedScan ab d rest

/-- `AnimeManager._find_associated_torrent_by_track_json` (lines 761-779):
`td = none` models an absent or unreadable `track.json` (both return `None`
at lines 764-770); otherwise the per-record scan runs. -/
def findAssociatedTorrentByTrackJson (ab : String → String)
    (td : Option TrackData) (tracked : List TrackedTorrent) :
    Option TrackedTorrent :=
  match td with
  | none => none
  | some d => findAssociatedScan ab d tracked

/-! ## Sample data used by witnesses and counterexamples -/

/-- A tracked record with the given hash, download path and classification
dictionary; the remaining fields are fixed harmless values. -/
def mkTracked (ih : Option String) (dp : Option String)
    (al : Option (List (String × String))) : TrackedTorrent :=
  { id := 1, title := none, size := none, seeds := none, leechers := none
    downloads := none, infohash := ih, category := none, link := none
    downloadPath := dp, addedDate := none, status := some "added"
    anilistInfo := al }

/-- A daemon torrent with the given hash and fixed seeding fields. -/
def mkQb (h : Option String) : QbTorrent :=
  { hash := h, state := some "uploading", progress := none
    downloaded := none, size := none, dlspeed := none, upspeed := none
    etaSecs := none, ratioVal := none, name := some "Example.Show.S01"
    savePath := some "/dl" }

/-- A synced view meeting every completion guard. -/
def sampleCandidateView : SyncedTorrent :=
  { base := mkTracked (some "ABCD") (some "/dl")
      (some [("title", "Example Show")])
    foundInQb := true, qbStatus := "uploading"
    qbProgress := some 100, qbDownloaded := some 0, qbSize := some 0
    qbSpeedDl := some 0, qbSpeedUp := some 0, qbEtaSecs := some 0
    qbRatioVal := some 0, qbName := some "Example.Show.S01"
    qbSavePath := some "/dl" }

/-- The same view with an empty classification title. -/
def sampleEmptyTitleView : SyncedTorrent :=
  { sampleCandidateView with
    base := mkTracked (some "ABCD") (some "/dl") (some [("title", "")]) }

/-! ## Helper lemmas -/

/-- `List.contains` on strings agrees with membership. -/
theorem contains_iff_mem_str (l : List String) (s : String) :
    l.contains s = true ↔ s ∈ l := by
  induction l with
  | nil => simp
  | cons a l ih =>
    simp only [List.contains_cons, Bool.or_eq_true, beq_iff_eq, List.mem_cons,
      ih]

/-- Unfolded form of the completion-candidate test. -/
theorem isCompletedCandidate_iff (onDisk : String → Bool)
    (t : SyncedTorrent) :
    isCompletedCandidate onDisk t = true ↔
      (t.foundInQb = true ∧ t.qbStatus ∈ completedStates ∧
       t.base.status ≠ some "added_to_library" ∧
       (∃ s, anilistTitle t.base = some s ∧ s ≠ "") ∧
       t.qbSavePath.getD "" ≠ "" ∧ t.qbName.getD "" ≠ "" ∧
       onDisk (pathJoin (t.qbSavePath.getD "") (t.qbName.getD "")) = true) := by
  unfold isCompletedCandidate
  simp only [Bool.and_eq_true, bne_iff_ne, ne_eq, contains_iff_mem_str]
  constructor
  · rintro ⟨⟨⟨⟨⟨⟨⟨h1, h2⟩, h3⟩, h4⟩, h5⟩, h6⟩, h7⟩, h8⟩
    refine ⟨h1, h2, h3, ?_, h6, h7, h8⟩
    revert h4
    unfold truthyStr anilistTitle
    cases h : (t.base.anilistInfo.getD []).lookup "title" with
    | none => simp
    | some s =>
      simp only [bne_iff_ne, ne_eq]
      intro hs
      exact ⟨s, rfl, hs⟩
  · rintro ⟨h1, h2, h3, ⟨s, hs, hsne⟩, h6, h7, h8⟩
    have htruthy : truthyStr (anilistTitle t.base) = true := by
      unfold truthyStr
      rw [hs]
      simpa using hsne
    have hdict : (match t.base.anilistInfo with
        | some l => !l.isEmpty
        | none => false) = true := by
      unfold anilistTitle at hs
      cases hal : t.base.anilistInfo with
      | none => rw [hal] at hs; simp at hs
      | some l =>
        rw [hal] at hs
        cases l with
        | nil => simp at hs
        | cons a l' => simp
    exact ⟨⟨⟨⟨⟨⟨⟨h1, h2⟩, h3⟩, htruthy⟩, hdict⟩, h6⟩, h7⟩, h8⟩

/-- Claim C1: for every synced view list, the candidate filter of
`auto_add_completed_torrents` selects a torrent iff it was found in the
daemon, its daemon state is one of the terminal/seeding states, its tracked
status is not `"added_to_library"`, its `anilist_info` title is present and
non-empty, the daemon save path and name are both non-empty, and their join
exists on disk; in particular a view with an empty title is never selected
(whatever its state, including `"uploading"`). -/
theorem claim_C1_candidate_iff (onDisk : String → Bool)
    (views : List SyncedTorrent) (t : SyncedTorrent) :
    (t ∈ classifyCompleted onDisk views ↔
      (t ∈ views ∧ t.foundInQb = true ∧ t.qbStatus ∈ completedStates ∧
       t.base.status ≠ some "added_to_library" ∧
       (∃ s, anilistTitle t.base = some s ∧ s ≠ "") ∧
       t.qbSavePath.getD "" ≠ "" ∧ t.qbName.getD "" ≠ "" ∧
       onDisk (pathJoin (t.qbSavePath.getD "") (t.qbName.getD "")) = true)) ∧
    ((anilistTitle t.base = none ∨ anilistTitle t.base = some "") →
      isCompletedCandidate onDisk t = false) := by
  constructor
  · unfold classifyCompleted
    rw [List.mem_filter, isCompletedCandidate_iff]
  · intro hempty
    cases h : isCompletedCandidate onDisk t with
    | false => rfl
    | true =>
      obtain ⟨-, -, -, ⟨s, hs, hsne⟩, -⟩ :=
        (isCompletedCandidate_iff onDisk t).mp h
      cases hempty with
      | inl h0 => rw [h0] at hs; exact Option.noConfusion hs
      | inr h0 => rw [h0] at hs; exact absurd (Option.some.inj hs).symm hsne

/-- Witness for C1: a fully qualifying view is selected, and the same view
with an empty title is rejected. -/
theorem claim_C1_witness :
    sampleCandidateView ∈ classifyCompleted (fun _ => true)
      [sampleCandidateView] ∧
    isCompletedCandidate (fun _ => true) sampleEmptyTitleView = false := by
  constructor
  · exact ((claim_C1_candidate_iff (fun _ => true) [sampleCandidateView]
      sampleCandidateView).1).mpr
      ⟨by simp, rfl, by decide, by decide,
        ⟨"Example Show", by decide, by decide⟩, by decide, by decide, rfl⟩
  · exact (claim_C1_candidate_iff (fun _ => true) []
      sampleEmptyTitleView).2 (Or.inr (by decide))

/-- Counterexample for C2 as stated: with a daemon listing that is empty
(daemon reachable, zero torrents) and one tracked record, `sync` returns an
empty view list together with an error — not one view per tracked record. -/
theorem claim_C2_counterexample :
    (syncTorrentsWithQb true true [] [mkTracked (some "ABCD") none none]).1
      = some [] ∧
    ([] : List SyncedTorrent).length ≠
      [mkTracked (some "ABCD") none none].length := by
  exact ⟨rfl, by decide⟩

/-- Claim C2 (amended: for a non-empty daemon listing): `sync` returns
exactly the store-ordered list of merged views, one per tracked record; a
view is found iff the listing has a case-insensitively matching hash, in
which case the daemon fields of the first such entry are merged, and
otherwise the view is reported with state `"not_found"`. -/
theorem claim_C2_sync_merge (qb : List QbTorrent)
    (tracked : List TrackedTorrent) (hqb : qb ≠ []) :
    (syncTorrentsWithQb true true qb tracked).1
      = some (tracked.map (mergeView qb)) ∧
    (tracked.map (mergeView qb)).length = tracked.length ∧
    ∀ t : TrackedTorrent,
      (mergeView qb t).base = t ∧
      ((mergeView qb t).foundInQb = true ↔
        ∃ q ∈ qb, pyLower (q.hash.getD "") = pyLower (t.infohash.getD "")) ∧
      ((mergeView qb t).foundInQb = false →
        (mergeView qb t).qbStatus = "not_found") ∧
      ((mergeView qb t).foundInQb = true →
        ∃ q ∈ qb, pyLower (q.hash.getD "") = pyLower (t.infohash.getD "") ∧
          (mergeView qb t).qbStatus = q.state.getD "unknown" ∧
          (mergeView qb t).qbName = some (q.name.getD "Unknown") ∧
          (mergeView qb t).qbSavePath = some (q.savePath.getD "Unknown")) := by
  refine ⟨?_, List.length_map _ _, ?_⟩
  · unfold syncTorrentsWithQb
    have : qb.isEmpty = false := by
      cases qb with
      | nil => exact absurd rfl hqb
      | cons a l => rfl
    simp [this]
  · intro t
    unfold mergeView
    cases hfind : qb.find? (hashMatches t) with
    | none =>
      have hnone : ∀ q ∈ qb, ¬ hashMatches t q = true :=
        fun q hq => by
          have := List.find?_eq_none.mp hfind q hq
          simpa using this
      refine ⟨rfl, ?_, fun _ => rfl, fun h => absurd h (by simp)⟩
      simp only [Bool.false_eq_true, false_iff]
      rintro ⟨q, hq, hmatch⟩
      exact hnone q hq (by unfold hashMatches; exact beq_iff_eq.mpr hmatch)
    | some m =>
      have hm_mem : m ∈ qb := List.mem_of_find?_eq_some hfind
      have hm_match : hashMatches t m = true := List.find?_some hfind
      have hm_eq : pyLower (m.hash.getD "") = pyLower (t.infohash.getD "") := by
        unfold hashMatches at hm_match
        exact beq_iff_eq.mp hm_match
      refine ⟨rfl, ?_, ?_, ?_⟩
      · simp only [true_iff]
        exact ⟨m, hm_mem, hm_eq⟩
      · intro h; exact absurd h (by simp)
      · intro _
        exact ⟨m, hm_mem, hm_eq, rfl, rfl, rfl⟩

/-- Witness for C2: the amended theorem applied to a singleton listing and
a singleton store. -/
theorem claim_C2_witness :
    (syncTorrentsWithQb true true [mkQb (some "abcd")]
      [mkTracked (some "ABCD") none none]).1
      = some ([mkTracked (some "ABCD") none none].map
          (mergeView [mkQb (some "abcd")])) :=
  (claim_C2_sync_merge [mkQb (some "abcd")]
    [mkTracked (some "ABCD") none none] (by simp)).1

/-! ## Lemmas about the linker filesystem model -/

/-- Existence is membership in the path set. -/
theorem fsExists_iff_mem (fs : FS) (p : String) :
    fsExists fs p = true ↔ p ∈ fs.paths :=
  contains_iff_mem_str fs.paths p

/-- `fsSymlink` keeps every existing path. -/
theorem fsSymlink_mono {fs : FS} {s t : String} (q : String)
    (h : q ∈ fs.paths) : q ∈ (fsSymlink fs s t).paths :=
  List.mem_cons_of_mem _ h

/-- `fsWriteE` never touches the symlink set. -/
theorem fsWriteE_links (wr : String → Bool) (fs : FS) (p : String) :
    (fsWriteE wr fs p).links = fs.links := by
  unfold fsWriteE
  split
  · rfl
  · split
    · rfl
    · rfl

/-- `fsWriteE` keeps every existing path. -/
theorem fsWriteE_mono (wr : String → Bool) {fs : FS} {p : String}
    (q : String) (h : q ∈ fs.paths) : q ∈ (fsWriteE wr fs p).paths := by
  unfold fsWriteE
  split
  · exact h
  · split
    · exact List.mem_cons_of_mem _ h
    · exact h

/-- Writing an already-existing path is a no-op for every environment. -/
theorem fsWriteE_of_exists (wr : String → Bool) {fs : FS} {p : String}
    (h : p ∈ fs.paths) : fsWriteE wr fs p = fs := by
  unfold fsWriteE
  rw [if_pos ((fsExists_iff_mem fs p).mpr h)]

/-- A successful `makedirs` yields a state containing the directory and
every previous path. -/
theorem fsMkdirE_some {mk : String → Bool} {fs fs1 : FS} {p : String}
    (h : fsMkdirE mk fs p = some fs1) :
    p ∈ fs1.paths ∧ ∀ q ∈ fs.paths, q ∈ fs1.paths := by
  unfold fsMkdirE at h
  split at h
  · next hex =>
    cases Option.some.inj h
    exact ⟨(fsExists_iff_mem fs p).mp hex, fun q hq => hq⟩
  · split at h
    · cases Option.some.inj h
      exact ⟨List.mem_cons_self _ _, fun q hq => List.mem_cons_of_mem _ hq⟩
    · exact Option.noConfusion h

/-- The per-file loop keeps every existing path (whatever the symlink
environment does). -/
theorem applyFilesE_mono (link : String → String → Bool) (fs : FS) (c : Nat)
    (files : List FileEntry) (q : String) (h : q ∈ fs.paths) :
    q ∈ (applyFilesE link fs c files).1.paths := by
  induction files generalizing fs c with
  | nil => exact h
  | cons e rest ih =>
    unfold applyFilesE
    split
    · exact ih fs (c + 1) h
    · split
      · exact ih _ (c + 1) (fsSymlink_mono q h)
      · exact ih fs c h

/-- When the environment lets every symlink of the list succeed, the
per-file loop counts every entry and leaves every target existing. -/
theorem applyFilesE_allOk (link : String → String → Bool) (fs : FS)
    (c : Nat) (files : List FileEntry)
    (h : ∀ e ∈ files, link e.source e.target = true) :
    (applyFilesE link fs c files).2 = c + files.length ∧
    ∀ e ∈ files, e.target ∈ (applyFilesE link fs c files).1.paths := by
  induction files generalizing fs c with
  | nil => exact ⟨rfl, by simp⟩
  | cons e rest ih =>
    have hrest : ∀ e' ∈ rest, link e'.source e'.target = true :=
      fun e' he' => h e' (List.mem_cons_of_mem _ he')
    unfold applyFilesE
    by_cases hex : fsExists fs e.target = true
    · rw [if_pos hex]
      obtain ⟨hcount, htargets⟩ := ih fs (c + 1) hrest
      refine ⟨by rw [hcount, List.length_cons]; omega, ?_⟩
      intro e' he'
      rcases List.mem_cons.mp he' with heq | htail
      · subst heq
        exact applyFilesE_mono link fs (c + 1) rest _
          ((fsExists_iff_mem fs _).mp hex)
      · exact htargets e' htail
    · rw [if_neg hex, if_pos (h e (List.mem_cons_self _ _))]
      obtain ⟨hcount, htargets⟩ := ih (fsSymlink fs e.source e.target)
        (c + 1) hrest
      refine ⟨by rw [hcount, List.length_cons]; omega, ?_⟩
      intro e' he'
      rcases List.mem_cons.mp he' with heq | htail
      · subst heq
        exact applyFilesE_mono link _ (c + 1) rest _
          (List.mem_cons_self _ _)
      · exact htargets e' htail

/-- When every target already exists the per-file loop changes nothing and
counts every entry as already linked, for every environment. -/
theorem applyFilesE_fixpoint (link : String → String → Bool) (fs : FS)
    (c : Nat) (files : List FileEntry)
    (h : ∀ e ∈ files, e.target ∈ fs.paths) :
    applyFilesE link fs c files = (fs, c + files.length) := by
  induction files generalizing c with
  | nil => rfl
  | cons e rest ih =>
    unfold applyFilesE
    rw [if_pos ((fsExists_iff_mem fs _).mpr (h e (List.mem_cons_self _ _)))]
    rw [ih (c + 1) (fun e' he' => h e' (List.mem_cons_of_mem _ he'))]
    simp [Nat.add_comm, Nat.add_assoc, Nat.add_left_comm]

/-- The total number of file entries in a folder list. -/
def totalFiles (folders : List FolderEntry) : Nat :=
  (folders.map (fun f => f.files.length)).sum

/-- A non-aborted per-folder run whose symlinks all succeed counts every
entry, keeps every existing path, and leaves every folder path and every
target existing. -/
theorem applyFoldersE_allOk (mk : String → Bool)
    (link : String → String → Bool) (fs : FS) (c : Nat)
    (folders : List FolderEntry)
    (hlink : ∀ f ∈ folders, ∀ e ∈ f.files, link e.source e.target = true)
    (hok : (applyFoldersE mk link fs c folders).2.2 = true) :
    (applyFoldersE mk link fs c folders).2.1 = c + totalFiles folders ∧
    (∀ q ∈ fs.paths, q ∈ (applyFoldersE mk link fs c folders).1.paths) ∧
    ∀ f ∈ folders,
      f.path ∈ (applyFoldersE mk link fs c folders).1.paths ∧
      ∀ e ∈ f.files,
        e.target ∈ (applyFoldersE mk link fs c folders).1.paths := by
  induction folders generalizing fs c with
  | nil => exact ⟨by simp [applyFoldersE, totalFiles], fun q hq => hq, by simp⟩
  | cons f rest ih =>
    cases hmk : fsMkdirE mk fs f.path with
    | none =>
      rw [show applyFoldersE mk link fs c (f :: rest) = (fs, c, false) by
        simp only [applyFoldersE, hmk]] at hok
      exact absurd hok (by simp)
    | some fs1 =>
      obtain ⟨hp1, hmono1⟩ := fsMkdirE_some hmk
      have hstep : applyFoldersE mk link fs c (f :: rest) =
          applyFoldersE mk link (applyFilesE link fs1 c f.files).1
            (applyFilesE link fs1 c f.files).2 rest := by
        simp only [applyFoldersE, hmk]
      obtain ⟨hcnt1, htgt1⟩ := applyFilesE_allOk link fs1 c f.files
        (hlink f (List.mem_cons_self _ _))
      rw [hstep] at hok ⊢
      have hlinkrest : ∀ g ∈ rest, ∀ e ∈ g.files,
          link e.source e.target = true :=
        fun g hg => hlink g (List.mem_cons_of_mem _ hg)
      obtain ⟨ihcnt, ihmono, ihpres⟩ := ih _ _ hlinkrest hok
      refine ⟨?_, ?_, ?_⟩
      · rw [ihcnt, hcnt1]
        simp [totalFiles]
        omega
      · intro q hq
        exact ihmono q (applyFilesE_mono link fs1 c f.files q (hmono1 q hq))
      · intro g hg
        rcases List.mem_cons.mp hg with heq | htail
        · subst heq
          refine ⟨?_, ?_⟩
          · exact ihmono _ (applyFilesE_mono link fs1 c g.files _ hp1)
          · exact fun e he => ihmono _ (htgt1 e he)
        · exact ihpres g htail

/-- When every folder path and every target already exists the per-folder
loop changes nothing, counts every file entry as already linked, and never
aborts — for every later environment. -/
theorem applyFoldersE_fixpoint (mk : String → Bool)
    (link : String → String → Bool) (fs : FS) (c : Nat)
    (folders : List FolderEntry)
    (h : ∀ f ∈ folders, f.path ∈ fs.paths ∧ ∀ e ∈ f.files,
      e.target ∈ fs.paths) :
    applyFoldersE mk link fs c folders = (fs, c + totalFiles folders, true) := by
  induction folders generalizing c with
  | nil => simp [applyFoldersE, totalFiles]
  | cons f rest ih =>
    have hf := h f (List.mem_cons_self _ _)
    have hmk : fsMkdirE mk fs f.path = some fs := by
      unfold fsMkdirE
      rw [if_pos ((fsExists_iff_mem fs _).mpr hf.1)]
    have hfiles := applyFilesE_fixpoint link fs c f.files hf.2
    have hrest := ih (c + f.files.length)
      (fun g hg => h g (List.mem_cons_of_mem _ hg))
    simp only [applyFoldersE, hmk, hfiles, hrest]
    simp [totalFiles, Nat.add_comm, Nat.add_assoc, Nat.add_left_comm]

/-- A two-file plan of which the second symlink will fail transiently. -/
def planTwoFiles : FileStructure :=
  { root := "/lib/Show"
    folders := [{ path := "/lib/Show/Season 01"
                  files := [{ source := "/dl/x/ep1.mkv"
                              target := "/lib/Show/Season 01/ep1.mkv" },
                            { source := "/dl/x/ep2.mkv"
                              target := "/lib/Show/Season 01/ep2.mkv" }] }] }

/-- A symlink environment that fails exactly on the second target. -/
def failSecondLink : String → String → Bool :=
  fun _ t => t != "/lib/Show/Season 01/ep2.mkv"

/-- The filesystem after the partially-successful first apply of
`planTwoFiles`: one link made, the second target missing, `track.json`
written, result `true`. -/
def partialApplyResult : FS :=
  { paths := ["/lib/Show/track.json", "/lib/Show/Season 01/ep1.mkv",
              "/lib/Show/Season 01"]
    links := [("/lib/Show/Season 01/ep1.mkv", "/dl/x/ep1.mkv")] }

/-- Counterexample for C3 as stated: a first apply during which one
`os.symlink` fails is still "successful" (it returns `true`, since one file
was linked and only a zero count fails the call), yet it leaves that target
missing, and a second apply — the error now gone — returns `true` while
creating a new symlink, so the symlink set differs from the one after the
first call. -/
theorem claim_C3_counterexample :
    addCompletedTorrentToLibrary (fun _ => true) failSecondLink
      (fun _ => true) (some planTwoFiles) { paths := [], links := [] }
      = (true, partialApplyResult) ∧
    "/lib/Show/Season 01/ep2.mkv" ∉ partialApplyResult.paths ∧
    (addCompletedTorrentToLibrary (fun _ => true) (fun _ _ => true)
      (fun _ => true) (some planTwoFiles) partialApplyResult).1 = true ∧
    (addCompletedTorrentToLibrary (fun _ => true) (fun _ _ => true)
      (fun _ => true) (some planTwoFiles) partialApplyResult).2.links ≠
      partialApplyResult.links := by
  refine ⟨by decide, by decide, by decide, by decide⟩

/-- Claim C3 (amended: the first apply must have had no per-file symlink
failure): if an apply returns `true` and the environment let every symlink
of the plan succeed, then a second apply of the same plan — under any later
environment — finds every folder and every target pre-existing, creates no
new symlinks, returns `true`, and changes the state at most by re-writing
`track.json` (not at all when that file already exists, as it does when the
first write succeeded). -/
theorem claim_C3_apply_idempotent (mk1 mk2 : String → Bool)
    (link1 link2 : String → String → Bool) (wr1 wr2 : String → Bool)
    (st : FileStructure) (fs fs1 : FS)
    (h : addCompletedTorrentToLibrary mk1 link1 wr1 (some st) fs
      = (true, fs1))
    (hlink : ∀ f ∈ st.folders, ∀ e ∈ f.files,
      link1 e.source e.target = true) :
    addCompletedTorrentToLibrary mk2 link2 wr2 (some st) fs1 =
      (true, fsWriteE wr2 fs1 (pathJoin st.root "track.json")) ∧
    (fsWriteE wr2 fs1 (pathJoin st.root "track.json")).links = fs1.links ∧
    (pathJoin st.root "track.json" ∈ fs1.paths →
      fsWriteE wr2 fs1 (pathJoin st.root "track.json") = fs1) ∧
    ∀ f ∈ st.folders, f.path ∈ fs1.paths ∧ ∀ e ∈ f.files,
      e.target ∈ fs1.paths := by
  simp only [addCompletedTorrentToLibrary] at h
  by_cases hok : (applyFoldersE mk1 link1 fs 0 st.folders).2.2 = true
  · rw [if_pos hok] at h
    by_cases hc : (applyFoldersE mk1 link1 fs 0 st.folders).2.1 = 0
    · rw [if_pos hc] at h
      exact absurd (congrArg Prod.fst h) (by simp)
    · rw [if_neg hc] at h
      have hfs1 : fs1 = fsWriteE wr1 (applyFoldersE mk1 link1 fs 0 st.folders).1
          (pathJoin st.root "track.json") := (Prod.mk.injEq .. ▸ h).2.symm
      obtain ⟨hcnt, -, hpres0⟩ :=
        applyFoldersE_allOk mk1 link1 fs 0 st.folders hlink hok
      have hpres : ∀ f ∈ st.folders, f.path ∈ fs1.paths ∧
          ∀ e ∈ f.files, e.target ∈ fs1.paths := by
        intro f hf
        rw [hfs1]
        exact ⟨fsWriteE_mono wr1 _ (hpres0 f hf).1,
          fun e he => fsWriteE_mono wr1 _ ((hpres0 f hf).2 e he)⟩
      have htot : totalFiles st.folders ≠ 0 := by
        intro h0
        exact hc (by rw [hcnt, h0])
      have hfix := applyFoldersE_fixpoint mk2 link2 fs1 0 st.folders hpres
      refine ⟨?_, fsWriteE_links wr2 fs1 _,
        fun hmem => fsWriteE_of_exists wr2 hmem, hpres⟩
      simp only [addCompletedTorrentToLibrary, hfix]
      rw [if_pos trivial, if_neg (by simpa using htot)]
  · rw [if_neg hok] at h
    exact absurd (congrArg Prod.fst h) (by simp)

/-- A one-folder one-file plan for the C3 witness. -/
def samplePlan : FileStructure :=
  { root := "/lib/Show"
    folders := [{ path := "/lib/Show/Season 01"
                  files := [{ source := "/dl/x/ep1.mkv"
                              target := "/lib/Show/Season 01/ep1.mkv" }] }] }

/-- The filesystem after a fully successful apply of `samplePlan` to an
empty filesystem. -/
def samplePlanResult : FS :=
  { paths := ["/lib/Show/track.json", "/lib/Show/Season 01/ep1.mkv",
              "/lib/Show/Season 01"]
    links := [("/lib/Show/Season 01/ep1.mkv", "/dl/x/ep1.mkv")] }

/-- Witness for C3: a concrete fully-successful apply, whose second apply
leaves the state untouched and returns `true`. -/
theorem claim_C3_witness :
    addCompletedTorrentToLibrary (fun _ => true) (fun _ _ => true)
      (fun _ => true) (some samplePlan) { paths := [], links := [] }
      = (true, samplePlanResult) ∧
    addCompletedTorrentToLibrary (fun _ => true) (fun _ _ => true)
      (fun _ => true) (some samplePlan) samplePlanResult
      = (true, samplePlanResult) := by
  refine ⟨by decide, ?_⟩
  have h := claim_C3_apply_idempotent (fun _ => true) (fun _ => true)
    (fun _ _ => true) (fun _ _ => true) (fun _ => true) (fun _ => true)
    samplePlan { paths := [], links := [] } samplePlanResult
    (by decide) (by decide)
  rw [h.1, h.2.2.1 (by decide)]

/-- The record whose sanitized classification title is empty, exercising the
unguarded removal path of `remove_torrent_and_library_entry`. -/
def emptyTitleTorrent : TrackedTorrent :=
  mkTracked (some "ABCD") (some "/dl") (some [("title", "")])

/-- Claim C4 (code bug): `remove_torrent_and_library_entry` computes
`join(libraryRoot, sanitize(title))`, which for an empty (or all-forbidden)
title is the library root itself with a trailing separator, and hands it to
`rmtree` without any root guard — while `_remove_entire_anime`'s explicit
guard (modelled by `removeEntireAnimeAllowed`, with `abspath` collapsing the
trailing separator) refuses exactly this target. -/
theorem claim_C4_root_deletion_bug :
    removeTorrentDeletionTarget "/library" (fun _ => true) emptyTitleTorrent
      = some "/library/" ∧
    normTrailing "/library/" = normTrailing "/library" ∧
    removeEntireAnimeAllowed normTrailing "/library" "/library/" = false := by
  decide

/-- Infohash-only torrent information for the C5 scenario. -/
def infoWithHash (h : String) : TorrentInfo :=
  { title := none, size := none, seeds := none, leechers := none
    downloads := none, infohash := some h, category := none, link := none
    downloadPath := none, anilistInfo := none }

/-- The C5 scenario: add two torrents, remove the first by infohash, add a
third. -/
def dbAfterRemoveAndAdd : List TrackedTorrent :=
  (addTorrent (infoWithHash "ccc") "t3"
    (removeTorrentsByInfohash "aaa"
      (addTorrent (infoWithHash "bbb") "t2"
        (addTorrent (infoWithHash "aaa") "t1" []).1).1).1).1

/-- Claim C5 (code bug): `add_torrent` assigns `id = len(torrents) + 1`, so
after a removal the next id collides with an existing record's id — here
both the surviving `"bbb"` record and the new `"ccc"` record carry id 2,
violating the uniqueness invariant. -/
theorem claim_C5_duplicate_id_bug :
    dbAfterRemoveAndAdd.map (fun t => t.id) = [2, 2] ∧
    dbAfterRemoveAndAdd.map (fun t => t.infohash)
      = [some "bbb", some "ccc"] ∧
    ¬ dbAfterRemoveAndAdd.Pairwise (fun a b => a.id ≠ b.id) := by
  refine ⟨by decide, by decide, by decide⟩

/-- A track-data record naming hash `"H"` and download path `"/p"`. -/
def sampleTrackData : TrackData :=
  { infohash := some "H", downloadPath := some "/p" }

/-- A record matching `sampleTrackData` only by download path. -/
def pathOnlyTorrent : TrackedTorrent := mkTracked (some "X") (some "/p") none

/-- A record matching `sampleTrackData` by infohash. -/
def hashMatchTorrent : TrackedTorrent := mkTracked (some "H") (some "/q") none

/-- Counterexample for C6 as stated: with an earlier record matching only by
download path and a later record matching by infohash, the scan returns the
earlier path-matched record — hash matching does not take priority over the
path fallback across records, only within a single record. -/
theorem claim_C6_counterexample :
    findAssociatedTorrentByTrackJson (fun s => s) (some sampleTrackData)
      [pathOnlyTorrent, hashMatchTorrent] = some pathOnlyTorrent ∧
    trackHashMatches sampleTrackData pathOnlyTorrent = false ∧
    trackHashMatches sampleTrackData hashMatchTorrent = true := by
  decide

/-- Claim C6 (amended): the provenance lookup returns `none` for an absent
or unreadable `track.json`, and otherwise scans the tracked records in
listing order, returning the first record whose infohash equals the track
data's (when truthy) or whose normalised download path equals the track
data's — i.e. the first record matching either criterion, with the
hash-before-path order applying per record, not globally. -/
theorem claim_C6_provenance_scan (ab : String → String)
    (tracked : List TrackedTorrent) :
    findAssociatedTorrentByTrackJson ab none tracked = none ∧
    ∀ d : TrackData,
      findAssociatedTorrentByTrackJson ab (some d) tracked =
        tracked.find?
          (fun t => trackHashMatches d t || trackPathMatches ab d t) := by
  refine ⟨rfl, fun d => ?_⟩
  show findAssociatedScan ab d tracked = _
  induction tracked with
  | nil => rfl
  | cons t rest ih =>
    unfold findAssociatedScan
    by_cases hh : trackHashMatches d t = true
    · rw [if_pos hh, List.find?_cons_of_pos _ (by rw [hh]; rfl)]
    · rw [if_neg hh]
      by_cases hp : trackPathMatches ab d t = true
      · rw [if_pos hp,
          List.find?_cons_of_pos _ (by rw [hp, Bool.or_true])]
      · rw [if_neg hp, ih,
          List.find?_cons_of_neg _ (by
            simp only [Bool.or_eq_true, not_or]
            exact ⟨hh, hp⟩)]

/-- A tracked record carrying a real classification title. -/
def exampleShowTorrent : TrackedTorrent :=
  mkTracked (some "ABCD") (some "/dl") (some [("title", "Example Show")])

/-- Counterexample for C7 as stated: when the download folder cannot be
listed (`os.walk` yields nothing, modelled by the empty walk), the planner
still returns a plan — never `none`; in fact no code path of
`sort_torrent_files_for_jellyfin` produces `None`. -/
theorem claim_C7_counterexample :
    sortTorrentFilesForJellyfin "/library" (fun _ => none)
      exampleShowTorrent [] ≠ none := by
  decide

/-- Claim C7 (amended): on an unlistable download folder (empty walk) the
planner returns a plan with the per-title root and an empty folder list, and
the caller `add_completed_torrent_to_library` then fails (`false`) with the
filesystem untouched, which is the per-torrent non-fatal failure the
periodic job retries. -/
theorem claim_C7_empty_walk (animeBase : String)
    (probe : String → Option Rat) (t : TrackedTorrent) (fs : FS)
    (mkOk : String → Bool) (linkOk : String → String → Bool)
    (writeOk : String → Bool) :
    sortTorrentFilesForJellyfin animeBase probe t [] =
      some { root := animeMainFolderFor animeBase t, folders := [] } ∧
    addCompletedTorrentToLibrary mkOk linkOk writeOk
      (sortTorrentFilesForJellyfin animeBase probe t []) fs = (false, fs) := by
  exact ⟨rfl, rfl⟩

/-- Claim C8: a probed duration strictly above 2400 seconds routes the file
to `Movies` under the per-title root, regardless of the enclosing folder
components; a failed probe (`none`) is not a movie and falls through to the
season/specials classification. -/
theorem claim_C8_movie_routing (mainFolder : String)
    (probe : String → Option Rat) (rootPath : String)
    (relParts : List String) (fname : String) :
    (∀ d : Rat, probe (pathJoin rootPath fname) = some d → d > 2400 →
      routeFile mainFolder probe rootPath relParts fname =
        pathJoin mainFolder "Movies") ∧
    (probe (pathJoin rootPath fname) = none →
      routeFile mainFolder probe rootPath relParts fname =
        bestFolderFor mainFolder relParts fname) := by
  constructor
  · intro d hd hgt
    unfold routeFile
    rw [hd]
    have hmovie : isMovieDuration (some d) = true := by
      unfold isMovieDuration
      have hne : d ≠ 0 := by
        intro h0
        rw [h0] at hgt
        norm_num at hgt
      simp [hne, hgt]
    rw [if_pos hmovie]
  · intro hn
    unfold routeFile
    rw [hn]
    rfl

/-- Witness for C8: a 2401-second file inside a `Season 3` folder still goes
to `Movies`. -/
theorem claim_C8_witness :
    routeFile "/lib/Show" (fun _ => some (2401 : Rat)) "/dl/x" ["Season 3"]
      "ep1.mkv" = pathJoin "/lib/Show" "Movies" :=
  (claim_C8_movie_routing "/lib/Show" (fun _ => some (2401 : Rat)) "/dl/x"
    ["Season 3"] "ep1.mkv").1 2401 rfl (by norm_num)

/-- A folder scan over components without season or specials tokens finds
nothing. -/
theorem scanFolderParts_none_of_noMatch (mf : String) (l : List String)
    (h : ∀ p ∈ l, seasonSearch p = none ∧ specialsSearch p = false) :
    scanFolderParts mf l = none := by
  induction l with
  | nil => rfl
  | cons p rest ih =>
    unfold scanFolderParts
    rw [(h p (List.mem_cons_self _ _)).1]
    rw [if_neg (by rw [(h p (List.mem_cons_self _ _)).2]; exact Bool.false_ne_true)]
    exact ih (fun q hq => h q (List.mem_cons_of_mem _ hq))

/-- The folder scan stops at the first component matching the season
pattern, after components matching neither pattern. -/
theorem scanFolderParts_season (mf : String) (pre : List String)
    (p : String) (rest : List String) (n : Nat)
    (hpre : ∀ q ∈ pre, seasonSearch q = none ∧ specialsSearch q = false)
    (hp : seasonSearch p = some n) :
    scanFolderParts mf (pre ++ p :: rest)
      = some (pathJoin mf (seasonFolderName n)) := by
  induction pre with
  | nil =>
    rw [List.nil_append]
    unfold scanFolderParts
    rw [hp]
  | cons q pre' ih =>
    rw [List.cons_append]
    unfold scanFolderParts
    rw [(hpre q (List.mem_cons_self _ _)).1]
    rw [if_neg (by rw [(hpre q (List.mem_cons_self _ _)).2]; exact Bool.false_ne_true)]
    exact ih (fun r hr => hpre r (List.mem_cons_of_mem _ hr))

/-- Claim C9: with no season/specials token in any directory component and
none in the filename, a file defaults to `Season 01`; a filename season
match with number `n` yields the zero-padded `Season {n:02d}` folder and a
filename specials match yields `Season 00`; and a deepest-first folder
season match with number `n` likewise yields `Season {n:02d}`. -/
theorem claim_C9_default_and_naming (mainFolder : String)
    (relParts : List String) (fname : String) :
    ((∀ p ∈ relParts, seasonSearch p = none ∧ specialsSearch p = false) →
      ((seasonSearch fname = none → specialsSearch fname = false →
        bestFolderFor mainFolder relParts fname =
          pathJoin mainFolder "Season 01") ∧
       (∀ n, seasonSearch fname = some n →
        bestFolderFor mainFolder relParts fname =
          pathJoin mainFolder
            (if n < 10 then "Season 0" ++ toString n
             else "Season " ++ toString n)) ∧
       (seasonSearch fname = none → specialsSearch fname = true →
        bestFolderFor mainFolder relParts fname =
          pathJoin mainFolder "Season 00"))) ∧
    (∀ pre p rest n, relParts.reverse = pre ++ p :: rest →
      (∀ q ∈ pre, seasonSearch q = none ∧ specialsSearch q = false) →
      seasonSearch p = some n →
      bestFolderFor mainFolder relParts fname =
        pathJoin mainFolder
          (if n < 10 then "Season 0" ++ toString n
           else "Season " ++ toString n)) := by
  constructor
  · intro hnm
    have hscan : scanFolderParts mainFolder relParts.reverse = none :=
      scanFolderParts_none_of_noMatch _ _
        (fun p hp => hnm p (List.mem_reverse.mp hp))
    refine ⟨?_, ?_, ?_⟩
    · intro h1 h2
      unfold bestFolderFor
      rw [hscan, h1, if_neg (by rw [h2]; exact Bool.false_ne_true)]
    · intro n hn
      unfold bestFolderFor
      rw [hscan, hn]
      rfl
    · intro h1 h2
      unfold bestFolderFor
      rw [hscan, h1, if_pos h2]
  · intro pre p rest n hrev hpre hp
    unfold bestFolderFor
    rw [hrev, scanFolderParts_season mainFolder pre p rest n hpre hp]
    rfl

/-- Witness for C9: a file in a tokenless folder defaults to `Season 01`. -/
theorem claim_C9_witness :
    bestFolderFor "/lib/Show" ["Arc 1"] "ep01.mkv" =
      pathJoin "/lib/Show" "Season 01" :=
  ((claim_C9_default_and_naming "/lib/Show" ["Arc 1"] "ep01.mkv").1
    (by decide)).1 (by decide) (by decide)

/-- Claim C10 (implicit): removal by infohash uses case-sensitive exact
string equality — exactly the records whose stored hash is string-equal are
removed, and a record differing only in letter case survives the removal
even though the sync merge would still match it case-insensitively against
a daemon entry with the removal's hash. -/
theorem claim_C10_remove_exact_match (h : String)
    (db : List TrackedTorrent) :
    (∀ t ∈ db, t.infohash ≠ some h →
      t ∈ (removeTorrentsByInfohash h db).1) ∧
    (∀ t ∈ (removeTorrentsByInfohash h db).1,
      t ∈ db ∧ t.infohash ≠ some h) ∧
    (∀ t ∈ db, ∀ h' : String, t.infohash = some h' → h' ≠ h →
      pyLower h' = pyLower h →
      t ∈ (removeTorrentsByInfohash h db).1 ∧
      ∀ q : QbTorrent, q.hash = some h →
        (mergeView [q] t).foundInQb = true) := by
  have hkeep : ∀ t, t ∈ (removeTorrentsByInfohash h db).1 ↔
      t ∈ db ∧ t.infohash ≠ some h := by
    intro t
    unfold removeTorrentsByInfohash
    rw [List.mem_filter, decide_eq_true_eq]
  refine ⟨fun t ht hne => (hkeep t).mpr ⟨ht, hne⟩,
    fun t ht => (hkeep t).mp ht, ?_⟩
  intro t ht h' hih hne hlow
  have hmem : t ∈ (removeTorrentsByInfohash h db).1 :=
    (hkeep t).mpr ⟨ht, by rw [hih]; exact fun he => hne (Option.some.inj he)⟩
  refine ⟨hmem, fun q hq => ?_⟩
  have hmatch : hashMatches t q = true := by
    unfold hashMatches
    rw [hq, hih]
    exact beq_iff_eq.mpr hlow.symm
  have hfind : List.find? (hashMatches t) [q] = some q := by
    rw [List.find?_cons_of_pos _ hmatch]
  unfold mergeView
  rw [hfind]

/-- Witness for C10: hash `"ABC"` survives removal by `"abc"` yet the sync
merge finds it against a daemon entry with hash `"abc"`. -/
theorem claim_C10_witness :
    mkTracked (some "ABC") none none ∈
      (removeTorrentsByInfohash "abc" [mkTracked (some "ABC") none none]).1 ∧
    (mergeView [mkQb (some "abc")]
      (mkTracked (some "ABC") none none)).foundInQb = true := by
  have h := (claim_C10_remove_exact_match "abc"
      [mkTracked (some "ABC") none none]).2.2
    (mkTracked (some "ABC") none none) (List.mem_singleton_self _)
    "ABC" rfl (by decide) (by decide)
  exact ⟨h.1, h.2 (mkQb (some "abc")) rfl⟩

end JellyfinLib
